import Mathlib

/-!
Verification of the cache-reaper reconciliation script (`reaper.py`).

The script scans a Redis keyspace for `custom_domain:*` forward entries,
asks a Forgejo HTTP oracle whether the mapped repository still has a
`.pages` file, and deletes the per-domain key set for mappings judged
stale.  This file is a shallow embedding of that program:

* pure helpers (`parse_repo_mapping`, `sanitize_domain_name`, the key-set
  construction of `delete_domain_mappings`) become Lean functions over
  `String`/`List Char`;
* the two external collaborators become explicit data: the store is a
  `get : String → Option String` function plus a cursor-driven
  `scan : Nat → Nat × List String` function, and the Forgejo oracle is a
  function returning either an HTTP status code or a transport-level
  request failure (`requests.RequestException`);
* the observable side effects of a run (DEL commands issued to the store,
  existence calls issued to the oracle) are accumulated in the run state
  alongside the three counters the script returns;
* the unbounded `while True` scan loop is given an explicit fuel
  parameter; termination under the store's cursor contract is proved
  rather than assumed.

Python's `str.isalnum` is modelled by `Char.isAlphanum` and the
single-character `str.replace` calls by per-character maps; both are
faithful on the ASCII domain names the script handles, and the proved
properties do not depend on the extension of the alphanumeric predicate.
-/

namespace PagesReaper

/-- Outcome of one Forgejo API request: either an HTTP response carrying a
status code, or a `requests.RequestException` (timeout, connection error,
protocol error) raised before a response was obtained. -/
inductive OracleResponse where
  | status (code : Nat)
  | requestError
deriving DecidableEq, Repr

/-- The URL built by `has_pages_file`:
`f"{self.forgejo_host}/api/v1/repos/{username}/{repository}/contents/.pages"`. -/
def pages_file_url (forgejo_host username repository : String) : String :=
  forgejo_host ++ "/api/v1/repos/" ++ username ++ "/" ++ repository ++ "/contents/.pages"

/-- `CacheReaper.has_pages_file`: performs the GET and returns
`response.status_code == 200`; on `requests.RequestException` it prints a
warning and returns `True` ("on error, assume it still exists").  The
network outcome is the `oracle` argument. -/
def has_pages_file (oracle : String → String → OracleResponse)
    (username repository : String) : Bool :=
  match oracle username repository with
  | OracleResponse.status code => code == 200
  | OracleResponse.requestError => true

/-- Split a character list at the first occurrence of `':'`:
`some (before, after)` when a colon occurs, `none` otherwise.
This is Python's `value.split(":", 1)` restricted to the two shapes the
caller distinguishes (a 2-element result versus a 1-element result). -/
def split_first_colon : List Char → Option (List Char × List Char)
  | [] => none
  | c :: rest =>
    if c = ':' then some ([], rest)
    else
      match split_first_colon rest with
      | some (before, after) => some (c :: before, after)
      | none => none

/-- `CacheReaper.parse_repo_mapping`: `parts = value.split(":", 1)`;
returns the pair when the split yields two parts, `None` otherwise. -/
def parse_repo_mapping (value : String) : Option (String × String) :=
  match split_first_colon value.toList with
  | some (username, repository) => some (String.mk username, String.mk repository)
  | none => none

/-- `CacheReaper.sanitize_domain_name`:
`domain.replace(".", "-").replace("_", "-")`, then
`"".join(c if c.isalnum() or c == "-" else "-" for c in sanitized)`. -/
def sanitize_domain_name (domain : String) : String :=
  let dots_replaced := domain.toList.map (fun c => if c = '.' then '-' else c)
  let underscores_replaced := dots_replaced.map (fun c => if c = '_' then '-' else c)
  String.mk (underscores_replaced.map (fun c => if c.isAlphanum || c = '-' then c else '-'))

/-- The per-character transform `sanitize_domain_name` applies: the two
replacement passes followed by the alphanumeric-or-hyphen filter. -/
def sanitize_char (c : Char) : Char :=
  let c1 := if c = '.' then '-' else c
  let c2 := if c1 = '_' then '-' else c1
  if c2.isAlphanum || c2 = '-' then c2 else '-'

/-- The `keys_to_delete` list built by `CacheReaper.delete_domain_mappings`:
the forward key, then the reverse key, then the six Traefik router keys. -/
def keys_to_delete (domain username repository : String) : List String :=
  let forward_key := "custom_domain:" ++ domain
  let reverse_key := username ++ ":" ++ repository
  let sanitized_domain := sanitize_domain_name domain
  let traefik_keys := [
    "traefik/http/routers/custom-" ++ sanitized_domain ++ "/rule",
    "traefik/http/routers/custom-" ++ sanitized_domain ++ "/entrypoints/0",
    "traefik/http/routers/custom-" ++ sanitized_domain ++ "/service",
    "traefik/http/routers/custom-" ++ sanitized_domain ++ "/tls/certresolver",
    "traefik/http/routers/custom-" ++ sanitized_domain ++ "/middlewares/0",
    "traefik/http/routers/custom-" ++ sanitized_domain ++ "/priority"]
  [forward_key] ++ [reverse_key] ++ traefik_keys

/-- The DEL commands issued to the store by
`CacheReaper.delete_domain_mappings`: in dry-run mode the key list is only
printed and no delete is issued; otherwise one DEL per key is issued (a
`redis.RedisError` on an individual DEL is caught and the loop continues,
so all keys are attempted regardless of individual failures). -/
def delete_domain_mappings (dry_run : Bool) (domain username repository : String) :
    List String :=
  if dry_run then [] else keys_to_delete domain username repository

/-- The two external collaborators, as seen by one reconciliation run:
`get` is the store's GET (with `none` for an absent key; `decode_responses`
makes present values strings), `oracle` is the network outcome of the
Forgejo existence request for an owner/repository pair. -/
structure Env where
  get : String → Option String
  oracle : String → String → OracleResponse

/-- State accumulated by `CacheReaper.scan_and_clean`: the three counters
the function returns, plus the observable side effects of the run — the
DEL commands issued to the store and the existence calls issued to the
oracle, in order. -/
structure RunState where
  total_domains : Nat
  cleaned_domains : Nat
  error_count : Nat
  delete_calls : List String
  oracle_calls : List (String × String)
deriving DecidableEq, Repr

/-- The `(total_domains, cleaned_domains, error_count)` triple returned by
`scan_and_clean`. -/
def counters (s : RunState) : Nat × Nat × Nat :=
  (s.total_domains, s.cleaned_domains, s.error_count)

/-- Counter state at the top of `scan_and_clean`. -/
def initState : RunState :=
  { total_domains := 0, cleaned_domains := 0, error_count := 0,
    delete_calls := [], oracle_calls := [] }

/-- The body of the inner `for key in keys` loop of `scan_and_clean`:
`total_domains += 1`; strip the `custom_domain:` prefix; GET the value;
`if not value` (absent or empty) count an error and continue; parse with
`parse_repo_mapping`, on failure count an error and continue; otherwise
call `has_pages_file` and, when it denies, run `delete_domain_mappings`
and `cleaned_domains += 1`.  The `total_domains` increment is folded into
each branch. -/
def process_key (env : Env) (dry_run : Bool) (s : RunState) (key : String) : RunState :=
  let domain := key.drop ("custom_domain:".length)
  match env.get key with
  | none =>
    { s with total_domains := s.total_domains + 1, error_count := s.error_count + 1 }
  | some value =>
    if value = "" then
      { s with total_domains := s.total_domains + 1, error_count := s.error_count + 1 }
    else
      match parse_repo_mapping value with
      | none =>
        { s with total_domains := s.total_domains + 1, error_count := s.error_count + 1 }
      | some (username, repository) =>
        if ! has_pages_file env.oracle username repository then
          { s with total_domains := s.total_domains + 1,
                   cleaned_domains := s.cleaned_domains + 1,
                   oracle_calls := s.oracle_calls ++ [(username, repository)],
                   delete_calls := s.delete_calls ++
                     delete_domain_mappings dry_run domain username repository }
        else
          { s with total_domains := s.total_domains + 1,
                   oracle_calls := s.oracle_calls ++ [(username, repository)] }

/-- One page of the scan: the inner `for key in keys` loop. -/
def scan_page (env : Env) (dry_run : Bool) (s : RunState) (keys : List String) : RunState :=
  keys.foldl (process_key env dry_run) s

/-- The `while True` cursor loop of `scan_and_clean`: call
`SCAN(cursor, "custom_domain:*", 100)`, process the returned page, and
stop once the returned cursor is the sentinel `0`.  The source loop is
unbounded; `fuel` bounds the number of SCAN round-trips so the function is
total, and `none` means the trajectory was longer than the fuel.  Under
the store's cursor contract (`ScanTraversal`) enough fuel always exists. -/
def scan_loop (env : Env) (dry_run : Bool) (scan : Nat → Nat × List String) :
    Nat → Nat → RunState → Option RunState
  | 0, _, _ => none
  | fuel + 1, cursor, s =>
    let next := (scan cursor).1
    let s2 := scan_page env dry_run s (scan cursor).2
    if next = 0 then some s2 else scan_loop env dry_run scan fuel next s2

/-- `CacheReaper.scan_and_clean`: run the cursor loop from the initial
cursor `0` on zeroed counters. -/
def scan_and_clean (env : Env) (dry_run : Bool) (scan : Nat → Nat × List String)
    (fuel : Nat) : Option RunState :=
  scan_loop env dry_run scan fuel 0 initState

/-- The store's SCAN contract, §6: starting from cursor `c`, successive
SCAN calls return the pages in `pages` and the cursor returns to the
sentinel `0` exactly after the last page.  The pages jointly enumerate the
keys matching the requested pattern; the page sizes are the store's
choice (guided by the page-size hint), so quantifying over all traversals
quantifies over all paginations. -/
inductive ScanTraversal (scan : Nat → Nat × List String) : Nat → List (List String) → Prop
  | last (c : Nat) (ks : List String) (h : scan c = (0, ks)) :
      ScanTraversal scan c [ks]
  | step (c c' : Nat) (ks : List String) (rest : List (List String))
      (h : scan c = (c', ks)) (hne : c' ≠ 0) (htail : ScanTraversal scan c' rest) :
      ScanTraversal scan c (ks :: rest)

/-- Classification of the processing of one scanned key, determined by
the environment alone: skipped with an error, retained after an oracle
call, or evicted after an oracle call. -/
inductive KeyOutcome where
  | err
  | retained (username repository : String)
  | evicted (username repository : String)
deriving DecidableEq, Repr

/-- Which of the three `process_key` outcomes a key takes. -/
def classify (env : Env) (key : String) : KeyOutcome :=
  match env.get key with
  | none => KeyOutcome.err
  | some value =>
    if value = "" then KeyOutcome.err
    else
      match parse_repo_mapping value with
      | none => KeyOutcome.err
      | some (username, repository) =>
        if ! has_pages_file env.oracle username repository then
          KeyOutcome.evicted username repository
        else
          KeyOutcome.retained username repository

/-- A store holding one forward entry `custom_domain:b.test → carol:siteB`,
with an oracle that answers HTTP 500 to every existence request. -/
def env_status500 : Env :=
  { get := fun key => if key = "custom_domain:b.test" then some "carol:siteB" else none,
    oracle := fun _ _ => OracleResponse.status 500 }

/-- The same store, with an oracle whose requests fail at transport level
(`requests.RequestException`, e.g. a timeout). -/
def env_oracle_down : Env :=
  { get := fun key => if key = "custom_domain:b.test" then some "carol:siteB" else none,
    oracle := fun _ _ => OracleResponse.requestError }

/-- The same store, with an oracle answering a definitive HTTP 404. -/
def env_evict : Env :=
  { get := fun key => if key = "custom_domain:b.test" then some "carol:siteB" else none,
    oracle := fun _ _ => OracleResponse.status 404 }

/-- A store holding one forward entry whose value has no colon. -/
def env_malformed : Env :=
  { get := fun key => if key = "custom_domain:c.test" then some "no-colon-here" else none,
    oracle := fun _ _ => OracleResponse.status 200 }

/-- A store holding one forward entry whose value has an empty owner
component, with an oracle answering HTTP 200. -/
def env_empty_owner : Env :=
  { get := fun key => if key = "custom_domain:d.test" then some ":r" else none,
    oracle := fun _ _ => OracleResponse.status 200 }

/-- A SCAN behaviour returning the whole keyspace in one page. -/
def scan_single : Nat → Nat × List String :=
  fun _ => (0, ["custom_domain:b.test"])

/-- A SCAN behaviour returning the keyspace in two pages: cursor `0`
yields the first page and continuation cursor `7`, cursor `7` yields the
second page and the sentinel `0`. -/
def scan_two_pages : Nat → Nat × List String :=
  fun c => if c = 0 then (7, ["custom_domain:a.test"]) else (0, ["custom_domain:b.test"])

theorem process_key_classify (env : Env) (dry_run : Bool) (s : RunState) (key : String) :
    process_key env dry_run s key =
      match classify env key with
      | KeyOutcome.err =>
        { s with total_domains := s.total_domains + 1, error_count := s.error_count + 1 }
      | KeyOutcome.retained username repository =>
        { s with total_domains := s.total_domains + 1,
                 oracle_calls := s.oracle_calls ++ [(username, repository)] }
      | KeyOutcome.evicted username repository =>
        { s with total_domains := s.total_domains + 1,
                 cleaned_domains := s.cleaned_domains + 1,
                 oracle_calls := s.oracle_calls ++ [(username, repository)],
                 delete_calls := s.delete_calls ++
                   delete_domain_mappings dry_run
                     (key.drop ("custom_domain:".length)) username repository } := by
  unfold process_key classify
  cases hg : env.get key with
  | none => rfl
  | some value =>
    by_cases hv : value = ""
    · simp [hv]
    · simp only [hv, if_neg, ite_false]
      cases hp : parse_repo_mapping value with
      | none => rfl
      | some ur =>
        obtain ⟨u, r⟩ := ur
        cases hb : has_pages_file env.oracle u r <;> simp [hb]

theorem process_key_total (env : Env) (dry_run : Bool) (s : RunState) (key : String) :
    (process_key env dry_run s key).total_domains = s.total_domains + 1 := by
  rw [process_key_classify]
  cases classify env key <;> rfl

theorem scan_page_total (env : Env) (dry_run : Bool) (s : RunState) (keys : List String) :
    (scan_page env dry_run s keys).total_domains = s.total_domains + keys.length := by
  induction keys generalizing s with
  | nil => rfl
  | cons k ks ih =>
    show (scan_page env dry_run (process_key env dry_run s k) ks).total_domains = _
    rw [ih, process_key_total, List.length_cons]
    omega

theorem process_key_counters (env : Env) (d d' : Bool) (s s' : RunState) (key : String)
    (h : counters s = counters s') :
    counters (process_key env d s key) = counters (process_key env d' s' key) := by
  simp only [counters, Prod.mk.injEq] at h
  rw [process_key_classify, process_key_classify]
  cases classify env key <;> simp [counters, h.1, h.2.1, h.2.2]

theorem scan_page_counters (env : Env) (d d' : Bool) (keys : List String)
    (s s' : RunState) (h : counters s = counters s') :
    counters (scan_page env d s keys) = counters (scan_page env d' s' keys) := by
  induction keys generalizing s s' with
  | nil => exact h
  | cons k ks ih => exact ih _ _ (process_key_counters env d d' s s' k h)

theorem scan_loop_counters (env : Env) (scan : Nat → Nat × List String)
    (fuel : Nat) : ∀ cursor s s', counters s = counters s' →
    Option.map counters (scan_loop env true scan fuel cursor s) =
      Option.map counters (scan_loop env false scan fuel cursor s') := by
  induction fuel with
  | zero => intro cursor s s' _; rfl
  | succ n ih =>
    intro cursor s s' h
    rw [scan_loop, scan_loop]
    by_cases hz : (scan cursor).1 = 0
    · rw [if_pos hz, if_pos hz]
      exact congrArg some (scan_page_counters env true false (scan cursor).2 s s' h)
    · rw [if_neg hz, if_neg hz]
      exact ih _ _ _ (scan_page_counters env true false (scan cursor).2 s s' h)

theorem process_key_dry_deletes (env : Env) (s : RunState) (key : String) :
    (process_key env true s key).delete_calls = s.delete_calls := by
  rw [process_key_classify]
  cases classify env key <;> simp [delete_domain_mappings]

theorem scan_page_dry_deletes (env : Env) (keys : List String) (s : RunState) :
    (scan_page env true s keys).delete_calls = s.delete_calls := by
  induction keys generalizing s with
  | nil => rfl
  | cons k ks ih =>
    show (scan_page env true (process_key env true s k) ks).delete_calls = _
    rw [ih, process_key_dry_deletes]

theorem scan_loop_dry_deletes (env : Env) (scan : Nat → Nat × List String)
    (fuel : Nat) : ∀ cursor s t, scan_loop env true scan fuel cursor s = some t →
    t.delete_calls = s.delete_calls := by
  induction fuel with
  | zero => intro cursor s t h; cases h
  | succ n ih =>
    intro cursor s t h
    rw [scan_loop] at h
    by_cases hz : (scan cursor).1 = 0
    · rw [if_pos hz] at h
      cases h
      exact scan_page_dry_deletes env _ s
    · rw [if_neg hz] at h
      rw [ih _ _ _ h, scan_page_dry_deletes]

theorem process_key_invariant (env : Env) (dry_run : Bool) (s : RunState) (key : String)
    (h : s.cleaned_domains + s.error_count ≤ s.total_domains) :
    (process_key env dry_run s key).cleaned_domains +
        (process_key env dry_run s key).error_count ≤
      (process_key env dry_run s key).total_domains := by
  rw [process_key_classify]
  cases classify env key <;> simp <;> omega

theorem scan_page_invariant (env : Env) (dry_run : Bool) (keys : List String)
    (s : RunState) (h : s.cleaned_domains + s.error_count ≤ s.total_domains) :
    (scan_page env dry_run s keys).cleaned_domains +
        (scan_page env dry_run s keys).error_count ≤
      (scan_page env dry_run s keys).total_domains := by
  induction keys generalizing s with
  | nil => exact h
  | cons k ks ih => exact ih _ (process_key_invariant env dry_run s k h)

theorem scan_loop_invariant (env : Env) (dry_run : Bool) (scan : Nat → Nat × List String)
    (fuel : Nat) : ∀ cursor s t,
    s.cleaned_domains + s.error_count ≤ s.total_domains →
    scan_loop env dry_run scan fuel cursor s = some t →
    t.cleaned_domains + t.error_count ≤ t.total_domains := by
  induction fuel with
  | zero => intro cursor s t _ h; cases h
  | succ n ih =>
    intro cursor s t hs h
    rw [scan_loop] at h
    by_cases hz : (scan cursor).1 = 0
    · rw [if_pos hz] at h
      cases h
      exact scan_page_invariant env dry_run _ s hs
    · rw [if_neg hz] at h
      exact ih _ _ _ (scan_page_invariant env dry_run _ s hs) h

theorem scan_loop_of_traversal (env : Env) (dry_run : Bool)
    (scan : Nat → Nat × List String) :
    ∀ pages cursor, ScanTraversal scan cursor pages →
    ∀ fuel, pages.length ≤ fuel → ∀ s,
    scan_loop env dry_run scan fuel cursor s =
      some (pages.foldl (scan_page env dry_run) s) := by
  intro pages cursor htrav
  induction htrav with
  | last c ks h =>
    intro fuel hfuel s
    match fuel, hfuel with
    | n + 1, _ =>
      rw [scan_loop]
      simp [h]
  | step c c' ks rest h hne _ ih =>
    intro fuel hfuel s
    match fuel, hfuel with
    | n + 1, hf =>
      rw [scan_loop]
      simp only [h, if_neg hne]
      exact ih n (by simpa using Nat.lt_succ_iff.mp (Nat.lt_of_lt_of_le (Nat.lt_succ_of_le (Nat.le_refl _)) hf)) _

theorem foldl_scan_page_total (env : Env) (dry_run : Bool) :
    ∀ (pages : List (List String)) (s : RunState),
    (pages.foldl (scan_page env dry_run) s).total_domains =
      s.total_domains + pages.flatten.length := by
  intro pages
  induction pages with
  | nil => intro s; simp
  | cons p ps ih =>
    intro s
    rw [List.foldl_cons, ih, scan_page_total]
    simp only [List.flatten_cons, List.length_append]
    omega

theorem sanitize_eq_map (domain : String) :
    sanitize_domain_name domain = String.mk (domain.toList.map sanitize_char) := by
  simp only [sanitize_domain_name, List.map_map]
  rfl

theorem sanitize_char_idem (c : Char) : sanitize_char (sanitize_char c) = sanitize_char c := by
  by_cases h1 : c = '.'
  · subst h1; decide
  · by_cases h2 : c = '_'
    · subst h2; decide
    · by_cases h3 : c.isAlphanum || c = '-'
      · have hc : sanitize_char c = c := by simp [sanitize_char, h1, h2, h3]
        rw [hc]; exact hc
      · have hc : sanitize_char c = '-' := by simp [sanitize_char, h1, h2, h3]
        rw [hc]; decide

theorem split_none_iff : ∀ l : List Char, split_first_colon l = none ↔ ':' ∉ l := by
  intro l
  induction l with
  | nil => simp [split_first_colon]
  | cons c rest ih =>
    rw [split_first_colon]
    by_cases hc : c = ':'
    · subst hc; simp
    · rw [if_neg hc]
      cases hs : split_first_colon rest with
      | none =>
        have hr : ':' ∉ rest := ih.mp hs
        simp [List.mem_cons, Ne.symm hc, hr]
      | some p =>
        obtain ⟨a, b⟩ := p
        have hin : ':' ∈ rest := by
          by_contra hno
          rw [← ih] at hno
          rw [hno] at hs
          cases hs
        simp [List.mem_cons, hin]

theorem split_some_spec : ∀ l a b : List Char, split_first_colon l = some (a, b) →
    l = a ++ ':' :: b ∧ ':' ∉ a := by
  intro l
  induction l with
  | nil => intro a b h; cases h
  | cons c rest ih =>
    intro a b h
    rw [split_first_colon] at h
    by_cases hc : c = ':'
    · subst hc
      rw [if_pos rfl] at h
      simp only [Option.some.injEq, Prod.mk.injEq] at h
      obtain ⟨ha, hb⟩ := h
      subst ha; subst hb
      simp
    · rw [if_neg hc] at h
      cases hs : split_first_colon rest with
      | none => rw [hs] at h; cases h
      | some p =>
        obtain ⟨a', b'⟩ := p
        rw [hs] at h
        simp only [Option.some.injEq, Prod.mk.injEq] at h
        obtain ⟨ha, hb⟩ := h
        subst ha; subst hb
        obtain ⟨hl, hm⟩ := ih a' b' hs
        constructor
        · rw [hl]; rfl
        · intro hmem
          rcases List.mem_cons.mp hmem with h | h
          · exact hc h.symm
          · exact hm h

/-- C5: `sanitize_domain_name` is idempotent: applying it twice equals
applying it once, for every input string.  The transform replaces `.` and
`_` by `-` and then replaces every remaining character that is neither
alphanumeric nor `-` by `-`. -/
theorem sanitize_domain_name_idempotent (x : String) :
    sanitize_domain_name (sanitize_domain_name x) = sanitize_domain_name x := by
  have hmap : ∀ l : List Char,
      (l.map sanitize_char).map sanitize_char = l.map sanitize_char := by
    intro l
    induction l with
    | nil => rfl
    | cons c cs ih => simp [List.map_cons, ih, sanitize_char_idem c]
  rw [sanitize_eq_map x, sanitize_eq_map]
  exact congrArg String.mk (hmap x.toList)

/-- C6: `parse_repo_mapping` splits on the first `:` only — it returns
the text before the first colon paired with all the text after it when the
value contains a colon, and `none` when it contains no colon; in
particular `"a:b:c"` parses to `("a", "b:c")` and `"no-colon-here"` does
not parse. -/
theorem parse_repo_mapping_spec :
    (∀ value : String,
      (parse_repo_mapping value = none ↔ ':' ∉ value.toList) ∧
      (∀ username repository : String,
        parse_repo_mapping value = some (username, repository) →
          value.toList = username.toList ++ ':' :: repository.toList ∧
          ':' ∉ username.toList)) ∧
    parse_repo_mapping "a:b:c" = some ("a", "b:c") ∧
    parse_repo_mapping "no-colon-here" = none := by
  refine ⟨fun value => ⟨?_, ?_⟩, by decide, by decide⟩
  · unfold parse_repo_mapping
    cases hs : split_first_colon value.toList with
    | none => exact iff_of_true rfl ((split_none_iff value.toList).mp hs)
    | some p =>
      obtain ⟨a, b⟩ := p
      have hmem : ':' ∈ value.toList := by
        rw [(split_some_spec value.toList a b hs).1]
        exact List.mem_append_right a (List.mem_cons_self _ _)
      exact iff_of_false (fun h => Option.noConfusion h) (fun hno => hno hmem)
  · intro username repository h
    unfold parse_repo_mapping at h
    cases hs : split_first_colon value.toList with
    | none => rw [hs] at h; cases h
    | some p =>
      obtain ⟨a, b⟩ := p
      rw [hs] at h
      simp only [Option.some.injEq, Prod.mk.injEq] at h
      obtain ⟨hu, hr⟩ := h
      subst hu; subst hr
      exact split_some_spec value.toList a b hs

/-- C6 witness: the leading conjunct applied at `"alice:myrepo"`. -/
theorem parse_repo_mapping_spec_witness :
    "alice:myrepo".toList = "alice".toList ++ ':' :: "myrepo".toList ∧
    ':' ∉ "alice".toList :=
  (parse_repo_mapping_spec.1 "alice:myrepo").2 "alice" "myrepo" (by decide)

/-- C4: for every domain, owner and repository the key set computed for
eviction is exactly these 8 keys in this fixed order — the forward key,
the reverse key, then the six Traefik routing keys, each routing key
containing `custom-` followed by the sanitized domain; instantiated at
the spec's example the sanitized token is `custom-git-example-com`. -/
theorem keys_to_delete_spec :
    (∀ domain username repository : String,
      keys_to_delete domain username repository =
        ["custom_domain:" ++ domain,
         username ++ ":" ++ repository,
         "traefik/http/routers/" ++ ("custom-" ++ sanitize_domain_name domain) ++ "/rule",
         "traefik/http/routers/" ++ ("custom-" ++ sanitize_domain_name domain) ++ "/entrypoints/0",
         "traefik/http/routers/" ++ ("custom-" ++ sanitize_domain_name domain) ++ "/service",
         "traefik/http/routers/" ++ ("custom-" ++ sanitize_domain_name domain) ++ "/tls/certresolver",
         "traefik/http/routers/" ++ ("custom-" ++ sanitize_domain_name domain) ++ "/middlewares/0",
         "traefik/http/routers/" ++ ("custom-" ++ sanitize_domain_name domain) ++ "/priority"] ∧
      (keys_to_delete domain username repository).length = 8) ∧
    keys_to_delete "git.example.com" "alice" "myrepo" =
      ["custom_domain:git.example.com",
       "alice:myrepo",
       "traefik/http/routers/custom-git-example-com/rule",
       "traefik/http/routers/custom-git-example-com/entrypoints/0",
       "traefik/http/routers/custom-git-example-com/service",
       "traefik/http/routers/custom-git-example-com/tls/certresolver",
       "traefik/http/routers/custom-git-example-com/middlewares/0",
       "traefik/http/routers/custom-git-example-com/priority"] := by
  have hsplit : ∀ tail s : String,
      "traefik/http/routers/custom-" ++ s ++ tail =
        "traefik/http/routers/" ++ ("custom-" ++ s) ++ tail := by
    intro tail s
    rw [← String.append_assoc "traefik/http/routers/" "custom-" s]
    rfl
  refine ⟨fun domain username repository => ⟨?_, by rfl⟩, by rfl⟩
  unfold keys_to_delete
  simp only [List.cons_append, List.nil_append, hsplit]

/-- C1 counterexample: with a single mapping `b.test → carol/siteB` and an
oracle answering HTTP 500 — a status that is neither 200 nor a definitive
not-found — the run evicts the mapping (`cleaned_domains = 1`, all 8 keys
deleted) and leaves the error counter at 0, instead of retaining the
mapping and counting an error as the claim states. -/
theorem oracle_500_counterexample :
    scan_and_clean env_status500 false scan_single 1 =
      some { total_domains := 1, cleaned_domains := 1, error_count := 0,
             delete_calls := keys_to_delete "b.test" "carol" "siteB",
             oracle_calls := [("carol", "siteB")] } ∧
    keys_to_delete "b.test" "carol" "siteB" ≠ [] ∧
    Option.map counters (scan_and_clean env_status500 false scan_single 1) ≠
      some (1, 0, 1) := by
  exact ⟨by decide, by decide, by decide⟩

/-- C1 (amended): only HTTP 200 counts as existence.  For every oracle
HTTP response whose status code is not 200 — including 404 and every
other status — the existence check treats the repository as nonexistent:
the mapping is evicted (its key set is deleted) and the error counter is
not incremented; an HTTP 200 response leads to retention, also without
touching the error counter. -/
theorem oracle_status_eviction (env : Env) (dry_run : Bool) (s : RunState)
    (key value username repository : String) (code : Nat)
    (hv : env.get key = some value) (hne : value ≠ "")
    (hp : parse_repo_mapping value = some (username, repository))
    (ho : env.oracle username repository = OracleResponse.status code) :
    (code ≠ 200 →
      process_key env dry_run s key =
        { s with total_domains := s.total_domains + 1,
                 cleaned_domains := s.cleaned_domains + 1,
                 oracle_calls := s.oracle_calls ++ [(username, repository)],
                 delete_calls := s.delete_calls ++
                   delete_domain_mappings dry_run (key.drop ("custom_domain:".length))
                     username repository }) ∧
    (code = 200 →
      process_key env dry_run s key =
        { s with total_domains := s.total_domains + 1,
                 oracle_calls := s.oracle_calls ++ [(username, repository)] }) := by
  have hcls : classify env key =
      (if code = 200 then KeyOutcome.retained username repository
       else KeyOutcome.evicted username repository) := by
    by_cases hc : code = 200
    · simp [classify, has_pages_file, hv, hne, hp, ho, hc]
    · simp [classify, has_pages_file, hv, hne, hp, ho, hc]
  constructor
  · intro h200
    rw [process_key_classify, hcls, if_neg h200]
  · intro h200
    rw [process_key_classify, hcls, if_pos h200]

/-- C1 witness: the amended claim applied to the HTTP-500 environment. -/
theorem oracle_status_eviction_witness :
    process_key env_status500 false initState "custom_domain:b.test" =
      { total_domains := 1, cleaned_domains := 1, error_count := 0,
        delete_calls := keys_to_delete "b.test" "carol" "siteB",
        oracle_calls := [("carol", "siteB")] } :=
  (oracle_status_eviction env_status500 false initState "custom_domain:b.test"
      "carol:siteB" "carol" "siteB" 500 (by rfl) (by decide) (by decide) (by rfl)).1
    (by decide)

/-- C2 counterexample: with a single mapping `b.test → carol/siteB` and an
oracle whose call fails with a transport error, the run retains the
mapping and issues no deletes, but the error counter stays at 0 — it is
not incremented by 1 as the claim states. -/
theorem oracle_transport_error_counterexample :
    scan_and_clean env_oracle_down false scan_single 1 =
      some { total_domains := 1, cleaned_domains := 0, error_count := 0,
             delete_calls := [], oracle_calls := [("carol", "siteB")] } ∧
    Option.map RunState.error_count (scan_and_clean env_oracle_down false scan_single 1) ≠
      some 1 := by
  exact ⟨by decide, by decide⟩

/-- C2 (amended): for every mapping whose oracle existence call fails with
a transport, timeout, or protocol error, the mapping is retained — no
keys are deleted and the eviction counter is unchanged — and the error
counter is also unchanged: the failure is only printed, not counted. -/
theorem oracle_transport_error_retains (env : Env) (dry_run : Bool) (s : RunState)
    (key value username repository : String)
    (hv : env.get key = some value) (hne : value ≠ "")
    (hp : parse_repo_mapping value = some (username, repository))
    (ho : env.oracle username repository = OracleResponse.requestError) :
    process_key env dry_run s key =
      { s with total_domains := s.total_domains + 1,
               oracle_calls := s.oracle_calls ++ [(username, repository)] } := by
  have hcls : classify env key = KeyOutcome.retained username repository := by
    simp [classify, has_pages_file, hv, hne, hp, ho]
  rw [process_key_classify, hcls]

/-- C2 witness: the amended claim applied to the transport-failure
environment. -/
theorem oracle_transport_error_retains_witness :
    process_key env_oracle_down false initState "custom_domain:b.test" =
      { total_domains := 1, cleaned_domains := 0, error_count := 0,
        delete_calls := [], oracle_calls := [("carol", "siteB")] } :=
  oracle_transport_error_retains env_oracle_down false initState "custom_domain:b.test"
    "carol:siteB" "carol" "siteB" (by rfl) (by decide) (by decide) (by rfl)

/-- C3: for every store state, oracle behaviour and scan trajectory, a
dry-run execution returns the same
`(total_domains, cleaned_domains, error_count)` triple as a normal-mode
execution, and issues zero delete calls to the store. -/
theorem dry_run_equivalence (env : Env) (scan : Nat → Nat × List String) (fuel : Nat) :
    Option.map counters (scan_and_clean env true scan fuel) =
      Option.map counters (scan_and_clean env false scan fuel) ∧
    ∀ s : RunState, scan_and_clean env true scan fuel = some s → s.delete_calls = [] := by
  constructor
  · exact scan_loop_counters env scan fuel 0 initState initState rfl
  · intro s h
    exact scan_loop_dry_deletes env scan fuel 0 initState s h

/-- C3 witness: an eviction scenario (oracle answers 404) run in both
modes over a one-page scan. -/
theorem dry_run_equivalence_witness :
    Option.map counters (scan_and_clean env_evict true scan_single 1) =
      Option.map counters (scan_and_clean env_evict false scan_single 1) ∧
    RunState.delete_calls
      { total_domains := 1, cleaned_domains := 1, error_count := 0,
        delete_calls := [], oracle_calls := [("carol", "siteB")] } = [] :=
  ⟨(dry_run_equivalence env_evict scan_single 1).1,
   (dry_run_equivalence env_evict scan_single 1).2
     { total_domains := 1, cleaned_domains := 1, error_count := 0,
       delete_calls := [], oracle_calls := [("carol", "siteB")] } (by decide)⟩

/-- C7: a scanned forward key whose value is absent or empty, or whose
value fails `parse_repo_mapping`, increments the error counter by exactly
1, deletes no keys, issues no oracle call, and the scan continues with
the next key from the incremented state. -/
theorem missing_or_malformed_skips (env : Env) (dry_run : Bool) (s : RunState)
    (key : String)
    (h : env.get key = none ∨ env.get key = some "" ∨
         ∃ value, env.get key = some value ∧ parse_repo_mapping value = none) :
    process_key env dry_run s key =
      { s with total_domains := s.total_domains + 1,
               error_count := s.error_count + 1 } ∧
    ∀ rest : List String,
      scan_page env dry_run s (key :: rest) =
        scan_page env dry_run
          { s with total_domains := s.total_domains + 1,
                   error_count := s.error_count + 1 } rest := by
  have hcls : classify env key = KeyOutcome.err := by
    rcases h with h | h | ⟨value, hv, hp⟩
    · simp [classify, h]
    · simp [classify, h]
    · by_cases he : value = ""
      · simp [classify, hv, he]
      · simp [classify, hv, he, hp]
  have h1 : process_key env dry_run s key =
      { s with total_domains := s.total_domains + 1,
               error_count := s.error_count + 1 } := by
    rw [process_key_classify, hcls]
  refine ⟨h1, fun rest => ?_⟩
  show scan_page env dry_run (process_key env dry_run s key) rest = _
  rw [h1]

/-- C7 witness: a forward key whose value `"no-colon-here"` fails to
parse is counted as one error and nothing else changes. -/
theorem missing_or_malformed_skips_witness :
    process_key env_malformed false initState "custom_domain:c.test" =
      { total_domains := 1, cleaned_domains := 0, error_count := 1,
        delete_calls := [], oracle_calls := [] } :=
  (missing_or_malformed_skips env_malformed false initState "custom_domain:c.test"
    (Or.inr (Or.inr ⟨"no-colon-here", by rfl, by decide⟩))).1

/-- C8: under the store's cursor contract — the SCAN trajectory from the
initial sentinel `0` returns pages whose keys are exactly the keys
matching `custom_domain:*` — the scan loop terminates once the cursor
returns to `0`, and the `total_domains` counter of the run equals the
number of matching keys in the store, for every pagination of the
keyspace. -/
theorem scan_termination_and_completeness (env : Env) (dry_run : Bool)
    (scan : Nat → Nat × List String) (pages : List (List String)) (fuel : Nat)
    (store_keys : List String)
    (htrav : ScanTraversal scan 0 pages) (hfuel : pages.length ≤ fuel)
    (hkeys : pages.flatten.Perm store_keys) :
    ∃ s : RunState, scan_and_clean env dry_run scan fuel = some s ∧
      s.total_domains = store_keys.length := by
  refine ⟨pages.foldl (scan_page env dry_run) initState, ?_, ?_⟩
  · exact scan_loop_of_traversal env dry_run scan pages 0 htrav fuel hfuel initState
  · rw [foldl_scan_page_total]
    show 0 + pages.flatten.length = store_keys.length
    rw [hkeys.length_eq]
    omega

/-- C8 witness: a two-page traversal (cursor 0 → 7 → 0) of a two-key
keyspace is fully scanned and counts both keys. -/
theorem scan_termination_and_completeness_witness :
    ∃ s : RunState, scan_and_clean env_evict false scan_two_pages 2 = some s ∧
      s.total_domains =
        (["custom_domain:a.test", "custom_domain:b.test"] : List String).length :=
  scan_termination_and_completeness env_evict false scan_two_pages
    [["custom_domain:a.test"], ["custom_domain:b.test"]] 2
    ["custom_domain:a.test", "custom_domain:b.test"]
    (ScanTraversal.step 0 7 ["custom_domain:a.test"] [["custom_domain:b.test"]]
      (by rfl) (by decide)
      (ScanTraversal.last 7 ["custom_domain:b.test"] (by rfl)))
    (by decide) (List.Perm.refl _)

/-- C9: each scanned key increments at most one of the eviction and error
counters — the invariant `cleaned_domains + error_count ≤ total_domains`
is preserved by every processing step and holds for the result of every
run. -/
theorem counter_invariant :
    (∀ (env : Env) (dry_run : Bool) (s : RunState) (key : String),
      s.cleaned_domains + s.error_count ≤ s.total_domains →
      (process_key env dry_run s key).cleaned_domains +
          (process_key env dry_run s key).error_count ≤
        (process_key env dry_run s key).total_domains) ∧
    (∀ (env : Env) (dry_run : Bool) (scan : Nat → Nat × List String) (fuel : Nat)
      (s : RunState), scan_and_clean env dry_run scan fuel = some s →
      s.cleaned_domains + s.error_count ≤ s.total_domains) := by
  refine ⟨process_key_invariant, ?_⟩
  intro env dry_run scan fuel s h
  exact scan_loop_invariant env dry_run scan fuel 0 initState s (by decide) h

/-- C9 witness: the run-level invariant instantiated on an eviction run. -/
theorem counter_invariant_witness : (1 : Nat) + 0 ≤ 1 :=
  counter_invariant.2 env_evict false scan_single 1
    { total_domains := 1, cleaned_domains := 1, error_count := 0,
      delete_calls := keys_to_delete "b.test" "carol" "siteB",
      oracle_calls := [("carol", "siteB")] } (by decide)

/-- C10: `parse_repo_mapping` does not reject a value that begins or ends
with a colon: `":r"` parses to `("", "r")` and `"x:"` to `("x", "")`, and
an empty owner flows into the oracle existence call and its request URL
unchanged. -/
theorem parse_repo_mapping_empty_components :
    parse_repo_mapping ":r" = some ("", "r") ∧
    parse_repo_mapping "x:" = some ("x", "") ∧
    (process_key env_empty_owner false initState "custom_domain:d.test").oracle_calls =
      [("", "r")] ∧
    pages_file_url "https://git.example.com" "" "r" =
      "https://git.example.com/api/v1/repos//r/contents/.pages" := by
  exact ⟨by decide, by decide, by decide, by rfl⟩

end PagesReaper
